import Mathlib

/-!
Shallow embedding of the ArXiv paper pipeline in src/problem2
(load_data.py, query_papers.py, api_server.py).

Python strings are modelled as lists of characters (PyStr); the pipeline
only manipulates ASCII text, where CPython string order, lower-casing and
stripping coincide with the character-level model below.
-/

/-- A Python string, modelled as its list of characters. -/
abbrev PyStr := List Char

/-- The characters of a Lean string literal; used to write concrete Python
strings in definitions and statements. -/
def pys (s : String) : PyStr := s.data

/-- ASCII lower-casing of one character, the effect of Python str.lower on
the ASCII range (the only range the pipeline feeds it). -/
def lowerChar (c : Char) : Char :=
  if 65 ≤ c.toNat ∧ c.toNat ≤ 90 then Char.ofNat (c.toNat + 32) else c

/-- Model of Python str.lower(). -/
def pyLower (s : PyStr) : PyStr := s.map lowerChar

/-- Characters matched by the regex class [a-zA-Z]. -/
def isAsciiAlpha (c : Char) : Bool :=
  (97 ≤ c.toNat && c.toNat ≤ 122) || (65 ≤ c.toNat && c.toNat ≤ 90)

/-- Lower-case ASCII letters a-z. -/
def isLowerAlpha (c : Char) : Bool := 97 ≤ c.toNat && c.toNat ≤ 122

/-- The whitespace characters stripped by Python str.strip (ASCII fragment:
space, tab, newline, carriage return, vertical tab, form feed). -/
def isPySpace (c : Char) : Bool :=
  c.toNat = 32 || c.toNat = 9 || c.toNat = 10 || c.toNat = 13 ||
  c.toNat = 11 || c.toNat = 12

/-- Model of Python str.strip(). -/
def pyStrip (s : PyStr) : PyStr :=
  ((s.dropWhile isPySpace).reverse.dropWhile isPySpace).reverse

/-- STOPWORDS from load_data.py. -/
def STOPWORDS : List PyStr :=
  (["the", "a", "an", "and", "or", "but", "in", "on", "at", "to", "for",
    "of", "with", "by", "from", "up", "about", "into", "through", "during",
    "is", "are", "was", "were", "be", "been", "being", "have", "has", "had",
    "do", "does", "did", "will", "would", "could", "should", "may", "might",
    "can", "this", "that", "these", "those", "we", "our", "use", "using",
    "based", "approach", "method", "paper", "propose", "proposed", "show"]
   : List String).map pys

/-- Accumulator pass behind re.findall of [a-zA-Z]+: cur holds the current
run of letters, reversed; maximal runs are emitted between non-letters. -/
def findAlphaRuns : PyStr → PyStr → List PyStr
  | [], cur => if cur = [] then [] else [cur.reverse]
  | c :: rest, cur =>
    if isAsciiAlpha c then findAlphaRuns rest (c :: cur)
    else if cur = [] then findAlphaRuns rest []
    else cur.reverse :: findAlphaRuns rest []

/-- re.findall of the pattern [a-zA-Z]+: the maximal runs of ASCII letters
in the text, in order. -/
def tokenize (s : PyStr) : List PyStr := findAlphaRuns s []

/-- Accumulator pass behind firstOccurrences; seen collects the elements
already emitted. -/
def firstOccsAux : List PyStr → List PyStr → List PyStr
  | [], _ => []
  | x :: xs, seen =>
    if x ∈ seen then firstOccsAux xs seen
    else x :: firstOccsAux xs (x :: seen)

/-- The distinct elements of a list in first-encounter order: the iteration
order of a Python Counter (dict) built by counting the list. -/
def firstOccurrences (l : List PyStr) : List PyStr := firstOccsAux l []

/-- Index of the first occurrence of t in l (length of l when absent). -/
def firstIdx (l : List PyStr) (t : PyStr) : Nat :=
  (l.takeWhile (fun x => decide (x ≠ t))).length

/-- The order produced by Counter.most_common: count descending with ties in
first-encounter order (CPython documents most_common as a stable sort on the
counts, and counter insertion order is first-token-occurrence order, i.e.
position of the first occurrence in the token list). -/
def mcRank (tokens : List PyStr) (a b : PyStr) : Prop :=
  tokens.count b < tokens.count a ∨
    (tokens.count a = tokens.count b ∧ firstIdx tokens a ≤ firstIdx tokens b)

instance mcRankDec (tokens : List PyStr) : DecidableRel (mcRank tokens) :=
  fun a b => inferInstanceAs (Decidable (_ ∨ _))

instance mcRankTotal (tokens : List PyStr) : IsTotal PyStr (mcRank tokens) :=
  ⟨fun a b => by unfold mcRank; omega⟩

instance mcRankTrans (tokens : List PyStr) : IsTrans PyStr (mcRank tokens) :=
  ⟨fun a b c hab hbc => by unfold mcRank at hab hbc ⊢; omega⟩

/-- Counter(tokens).most_common(n): the distinct tokens sorted stably by
descending count, truncated to n. -/
def mostCommon (tokens : List PyStr) (n : Nat) : List PyStr :=
  (List.insertionSort (mcRank tokens) (firstOccurrences tokens)).take n

/-- The non-stopword tokens of the lower-cased abstract, in text order
(the list named tokens in extract_keywords). -/
def keywordTokens (abstract : PyStr) : List PyStr :=
  (tokenize (pyLower abstract)).filter (fun t => decide (t ∉ STOPWORDS))

/-- load_data.extract_keywords. -/
def extract_keywords (abstract : PyStr) (maxKeywords : Nat) : List PyStr :=
  if abstract = [] then []
  else if keywordTokens abstract = [] then []
  else mostCommon (keywordTokens abstract) maxKeywords

/-!
Model of CPython datetime.fromisoformat and datetime.isoformat, on the
subset every CPython version accepts: a YYYY-MM-DD date; after an
arbitrary separator character (fromisoformat ignores the character at
index 10) an optional time HH, HH:MM, HH:MM:SS, HH:MM:SS.fff or
HH:MM:SS.ffffff; and an optional UTC offset whose part after the sign is
HH:MM, HH:MM:SS or HH:MM:SS.ffffff (the three lengths fromisoformat
whitelists).  Input forms accepted only by some versions or
implementations (for example bare +HH offsets, compact YYYYMMDD dates, or
the one-to-six-digit fractions of 3.11+) are outside the model and reach
the fallback branch only under this parser.
-/

/-- A parsed datetime value; microsecond is below one million; tzoffUs is
the UTC offset in microseconds, none for a naive datetime. -/
structure PyDateTime where
  year : Nat
  month : Nat
  day : Nat
  hour : Nat
  minute : Nat
  second : Nat
  microsecond : Nat
  tzoffUs : Option Int
deriving DecidableEq

/-- Numeric value of an ASCII digit character. -/
def digitVal (c : Char) : Option Nat :=
  if 48 ≤ c.toNat ∧ c.toNat ≤ 57 then some (c.toNat - 48) else none

/-- Leap-year rule used by datetime.date. -/
def isLeapYear (y : Nat) : Bool :=
  y % 4 = 0 && (y % 100 ≠ 0 || y % 400 = 0)

/-- Days in a month, as validated by the datetime.date constructor. -/
def daysInMonth (y m : Nat) : Nat :=
  if m = 2 then (if isLeapYear y then 29 else 28)
  else if m = 4 ∨ m = 6 ∨ m = 9 ∨ m = 11 then 30
  else 31

/-- CPython date parsing of a YYYY-MM-DD string, including the range
validation done by the date constructor (year 1-9999, valid day of month). -/
def parseIsoDate (s : PyStr) : Option (Nat × Nat × Nat) :=
  match s with
  | [y1, y2, y3, y4, c1, m1, m2, c2, d1, d2] =>
    if c1 = '-' ∧ c2 = '-' then
      match digitVal y1, digitVal y2, digitVal y3, digitVal y4,
            digitVal m1, digitVal m2, digitVal d1, digitVal d2 with
      | some a, some b, some c, some d, some e, some f, some g, some h =>
        let y := 1000 * a + 100 * b + 10 * c + d
        let m := 10 * e + f
        let dd := 10 * g + h
        if 1 ≤ y ∧ 1 ≤ m ∧ m ≤ 12 ∧ 1 ≤ dd ∧ dd ≤ daysInMonth y m
        then some (y, m, dd) else none
      | _, _, _, _, _, _, _, _ => none
    else none
  | _ => none

/-- CPython time-of-day parsing: HH, HH:MM, HH:MM:SS, HH:MM:SS.fff or
HH:MM:SS.ffffff (a three-digit fraction counts milliseconds), including
the range validation done by the time constructor.  Yields
(hour, minute, second, microsecond). -/
def parseIsoTime (s : PyStr) : Option (Nat × Nat × Nat × Nat) :=
  match s with
  | [h1, h2] =>
    match digitVal h1, digitVal h2 with
    | some a, some b =>
      let h := 10 * a + b
      if h ≤ 23 then some (h, 0, 0, 0) else none
    | _, _ => none
  | [h1, h2, c1, m1, m2] =>
    if c1 = ':' then
      match digitVal h1, digitVal h2, digitVal m1, digitVal m2 with
      | some a, some b, some c, some d =>
        let h := 10 * a + b
        let mi := 10 * c + d
        if h ≤ 23 ∧ mi ≤ 59 then some (h, mi, 0, 0) else none
      | _, _, _, _ => none
    else none
  | [h1, h2, c1, m1, m2, c2, s1, s2] =>
    if c1 = ':' ∧ c2 = ':' then
      match digitVal h1, digitVal h2, digitVal m1, digitVal m2,
            digitVal s1, digitVal s2 with
      | some a, some b, some c, some d, some e, some f =>
        let h := 10 * a + b
        let mi := 10 * c + d
        let sec := 10 * e + f
        if h ≤ 23 ∧ mi ≤ 59 ∧ sec ≤ 59 then some (h, mi, sec, 0) else none
      | _, _, _, _, _, _ => none
    else none
  | [h1, h2, c1, m1, m2, c2, s1, s2, c3, f1, f2, f3] =>
    if c1 = ':' ∧ c2 = ':' ∧ c3 = '.' then
      match digitVal h1, digitVal h2, digitVal m1, digitVal m2,
            digitVal s1, digitVal s2, digitVal f1, digitVal f2, digitVal f3 with
      | some a, some b, some c, some d, some e, some f, some g, some i, some j =>
        let h := 10 * a + b
        let mi := 10 * c + d
        let sec := 10 * e + f
        let us := (100 * g + 10 * i + j) * 1000
        if h ≤ 23 ∧ mi ≤ 59 ∧ sec ≤ 59 then some (h, mi, sec, us) else none
      | _, _, _, _, _, _, _, _, _ => none
    else none
  | [h1, h2, c1, m1, m2, c2, s1, s2, c3, f1, f2, f3, f4, f5, f6] =>
    if c1 = ':' ∧ c2 = ':' ∧ c3 = '.' then
      match digitVal h1, digitVal h2, digitVal m1, digitVal m2,
            digitVal s1, digitVal s2, digitVal f1, digitVal f2,
            digitVal f3, digitVal f4, digitVal f5, digitVal f6 with
      | some a, some b, some c, some d, some e, some f,
        some g, some i, some j, some k, some l, some n =>
        let h := 10 * a + b
        let mi := 10 * c + d
        let sec := 10 * e + f
        let us := 100000 * g + 10000 * i + 1000 * j + 100 * k + 10 * l + n
        if h ≤ 23 ∧ mi ≤ 59 ∧ sec ≤ 59 then some (h, mi, sec, us) else none
      | _, _, _, _, _, _, _, _, _, _, _, _ => none
    else none
  | _ => none

/-- A UTC offset magnitude in microseconds, parsed from the part after the
sign in the forms HH:MM, HH:MM:SS or HH:MM:SS.ffffff (the lengths
fromisoformat whitelists).  No per-component bound is imposed: minutes or
seconds of 60-99 are folded into the total as timedelta does; the timezone
constructor then requires the total to be strictly below 24 hours. -/
def parseTzOffset (s : PyStr) : Option Nat :=
  match s with
  | [h1, h2, c1, m1, m2] =>
    if c1 = ':' then
      match digitVal h1, digitVal h2, digitVal m1, digitVal m2 with
      | some a, some b, some c, some d =>
        let us := (((10 * a + b) * 60 + (10 * c + d)) * 60) * 1000000
        if us < 86400000000 then some us else none
      | _, _, _, _ => none
    else none
  | [h1, h2, c1, m1, m2, c2, s1, s2] =>
    if c1 = ':' ∧ c2 = ':' then
      match digitVal h1, digitVal h2, digitVal m1, digitVal m2,
            digitVal s1, digitVal s2 with
      | some a, some b, some c, some d, some e, some f =>
        let us := (((10 * a + b) * 60 + (10 * c + d)) * 60 + (10 * e + f)) * 1000000
        if us < 86400000000 then some us else none
      | _, _, _, _, _, _ => none
    else none
  | [h1, h2, c1, m1, m2, c2, s1, s2, c3, f1, f2, f3, f4, f5, f6] =>
    if c1 = ':' ∧ c2 = ':' ∧ c3 = '.' then
      match digitVal h1, digitVal h2, digitVal m1, digitVal m2,
            digitVal s1, digitVal s2, digitVal f1, digitVal f2,
            digitVal f3, digitVal f4, digitVal f5, digitVal f6 with
      | some a, some b, some c, some d, some e, some f,
        some g, some i, some j, some k, some l, some n =>
        let us := (((10 * a + b) * 60 + (10 * c + d)) * 60 + (10 * e + f)) * 1000000
          + (100000 * g + 10000 * i + 1000 * j + 100 * k + 10 * l + n)
        if us < 86400000000 then some us else none
      | _, _, _, _, _, _, _, _, _, _, _, _ => none
    else none
  | _ => none

/-- Split a character list at the first occurrence of c; the second
component is the remainder after c when c occurs. -/
def splitAtFirst (c : Char) : PyStr → PyStr × Option PyStr
  | [] => ([], none)
  | x :: xs =>
    if x = c then ([], some xs)
    else
      let p := splitAtFirst c xs
      (x :: p.1, p.2)

/-- CPython time-string parsing including the sign-splitting used to find a
UTC offset: the time string is cut at the first minus, else the first plus;
the remainder is the offset. -/
def parseIsoTimeTz (s : PyStr) : Option (Nat × Nat × Nat × Nat × Option Int) :=
  match splitAtFirst '-' s with
  | (pre, some post) =>
    match parseIsoTime pre, parseTzOffset post with
    | some (h, mi, sec, us), some off => some (h, mi, sec, us, some (-(off : Int)))
    | _, _ => none
  | (_, none) =>
    match splitAtFirst '+' s with
    | (pre, some post) =>
      match parseIsoTime pre, parseTzOffset post with
      | some (h, mi, sec, us), some off => some (h, mi, sec, us, some ((off : Int)))
      | _, _ => none
    | (_, none) =>
      match parseIsoTime s with
      | some (h, mi, sec, us) => some (h, mi, sec, us, none)
      | none => none

/-- CPython datetime.fromisoformat: the first 10 characters are the date,
the character at index 10 (if any) is an arbitrary separator, the rest is
the time; an empty time part means midnight. -/
def pyFromIso (s : PyStr) : Option PyDateTime :=
  match parseIsoDate (s.take 10) with
  | none => none
  | some (y, m, d) =>
    match s.drop 11 with
    | [] => some ⟨y, m, d, 0, 0, 0, 0, none⟩
    | t =>
      match parseIsoTimeTz t with
      | some (h, mi, sec, us, off) => some ⟨y, m, d, h, mi, sec, us, off⟩
      | none => none

/-- An ASCII digit character from a value below ten. -/
def digitChar (n : Nat) : Char := Char.ofNat (48 + n)

/-- Two-digit zero-padded decimal, as printed by isoformat for values
below 100 (all validated components are). -/
def pad2 (n : Nat) : PyStr := [digitChar (n / 10 % 10), digitChar (n % 10)]

/-- Four-digit zero-padded decimal for the year (validated to 1-9999). -/
def pad4 (n : Nat) : PyStr :=
  [digitChar (n / 1000 % 10), digitChar (n / 100 % 10),
   digitChar (n / 10 % 10), digitChar (n % 10)]

/-- date.isoformat() for the given components. -/
def fmtDateYMD (y m d : Nat) : PyStr :=
  pad4 y ++ ['-'] ++ pad2 m ++ ['-'] ++ pad2 d

/-- dt.date().isoformat(). -/
def fmtDate (dt : PyDateTime) : PyStr := fmtDateYMD dt.year dt.month dt.day

/-- Six-digit zero-padded decimal for a microsecond value. -/
def pad6 (n : Nat) : PyStr :=
  [digitChar (n / 100000 % 10), digitChar (n / 10000 % 10),
   digitChar (n / 1000 % 10), digitChar (n / 100 % 10),
   digitChar (n / 10 % 10), digitChar (n % 10)]

/-- The offset suffix printed by isoformat for an aware datetime (the
offset is in microseconds): sign and HH:MM always, then seconds when the
sub-minute part is nonzero, then a six-digit fraction when the
sub-second part is nonzero. -/
def fmtOffset (off : Int) : PyStr :=
  let sign : PyStr := if 0 ≤ off then ['+'] else ['-']
  let a := off.natAbs
  let hh := a / 3600000000
  let mm := a / 60000000 % 60
  let ss := a / 1000000 % 60
  let us := a % 1000000
  sign ++ pad2 hh ++ [':'] ++ pad2 mm ++
    (if ss ≠ 0 ∨ us ≠ 0 then
      [':'] ++ pad2 ss ++ (if us ≠ 0 then ['.'] ++ pad6 us else [])
    else [])

/-- dt.isoformat(): date, the separator T, HH:MM:SS, a six-digit fraction
when the microsecond field is nonzero, and the offset when the datetime is
aware. -/
def fmtIso (dt : PyDateTime) : PyStr :=
  fmtDate dt ++ ['T'] ++ pad2 dt.hour ++ [':'] ++ pad2 dt.minute ++ [':'] ++
    pad2 dt.second ++
    (if dt.microsecond ≠ 0 then ['.'] ++ pad6 dt.microsecond else []) ++
    (match dt.tzoffUs with
     | none => []
     | some off => fmtOffset off)

/-- Remainder of a list after removing a given nonoptional prefix, when the
prefix matches. -/
def stripPrefixOpt : PyStr → PyStr → Option PyStr
  | [], s => some s
  | _ :: _, [] => none
  | p :: ps, c :: cs => if c = p then stripPrefixOpt ps cs else none

/-- Fuel-indexed worker for replaceList; the fuel stays at least the length
of the remaining input, so the zero-fuel row is never reached on the calls
replaceList makes. -/
def replaceFuel (pat rep : PyStr) : Nat → PyStr → PyStr
  | _, [] => []
  | 0, s => s
  | fuel + 1, c :: cs =>
    match stripPrefixOpt pat (c :: cs), pat with
    | some rest, _ :: _ => rep ++ replaceFuel pat rep fuel rest
    | _, _ => c :: replaceFuel pat rep fuel cs

/-- Model of Python str.replace (all occurrences, scanned left to right;
the pipeline never calls it with an empty pattern). -/
def replaceList (pat rep s : PyStr) : PyStr := replaceFuel pat rep s.length s

/-- load_data.normalize_published: returns the (date string, iso timestamp)
pair.  A date-only input is completed with T00:00:00; an input containing T
has Z rewritten to +00:00 before parsing; parse failure falls back to the
first 10 characters and the raw string. -/
def normalize_published (publishedRaw : Option PyStr) : PyStr × PyStr :=
  match publishedRaw with
  | none => (pys "1970-01-01", pys "1970-01-01T00:00:00Z")
  | some s =>
    if s = [] then (pys "1970-01-01", pys "1970-01-01T00:00:00Z")
    else
      let target :=
        if s.contains 'T' then replaceList (pys "Z") (pys "+00:00") s
        else pyStrip s ++ pys "T00:00:00"
      match pyFromIso target with
      | some dt => (fmtDate dt, replaceList (pys "+00:00") (pys "Z") (fmtIso dt))
      | none => (s.take 10, s)

/-!
Record normalization and denormalization, from the ingest loop of
load_data.main.
-/

/-- A JSON field value as load_data.main reads it: absent, a string, or a
list of strings (the shapes the loader distinguishes). -/
inductive JField where
  | absent
  | strVal (v : PyStr)
  | listVal (vs : List PyStr)
deriving DecidableEq

/-- A raw input record, with the optional fields main reads from each
paper dict. -/
structure RawPaper where
  arxivIdField : Option PyStr
  idField : Option PyStr
  titleField : Option PyStr
  abstractField : Option PyStr
  authorsField : JField
  categoriesField : JField
  publishedField : Option PyStr
deriving DecidableEq

/-- Python x or y for an optional string x: None and the empty string are
falsy and fall through to y. -/
def orElseStr (x : Option PyStr) (y : PyStr) : PyStr :=
  match x with
  | none => y
  | some v => if v = [] then y else v

/-- main line 173: str(paper.get("arxiv_id") or paper.get("id") or "").strip() -/
def resolveIdentifier (rec : RawPaper) : PyStr :=
  pyStrip (orElseStr rec.arxivIdField (orElseStr rec.idField []))

/-- main lines 179-184: xs = paper.get(k) or []; a non-list value is wrapped
in a one-element list (an empty string is falsy and becomes the empty
list). -/
def coerceToList (f : JField) : List PyStr :=
  match f with
  | .absent => []
  | .listVal vs => vs
  | .strVal v => if v = [] then [] else [v]

/-- The canonical per-record values computed at the top of the ingest loop
before the fan-out. -/
structure Paper where
  arxiv_id : PyStr
  title : PyStr
  abstract : PyStr
  authors : List PyStr
  categories : List PyStr
  keywords : List PyStr
  date_str : PyStr
  published : PyStr
deriving DecidableEq

/-- main lines 173-187: identifier resolution (skip when blank), field
trimming and coercion, date normalization and keyword extraction.  none
means the record is skipped and the loop continues. -/
def normalizeRecord (rec : RawPaper) : Option Paper :=
  let aid := resolveIdentifier rec
  if aid = [] then none
  else
    let title := pyStrip (rec.titleField.getD [])
    let abstract := pyStrip (rec.abstractField.getD [])
    let authors := coerceToList rec.authorsField
    let categories := coerceToList rec.categoriesField
    let dp := normalize_published rec.publishedField
    some ⟨aid, title, abstract, authors, categories,
          extract_keywords abstract 10, dp.1, dp.2⟩

/-- A physical DynamoDB item as load_data.main builds it: primary key pair,
the optional secondary-index key pairs, the item_type tag, and the full
copy of the paper attributes (base_attrs). -/
structure Item where
  PK : PyStr
  SK : PyStr
  GSI1PK : Option PyStr
  GSI1SK : Option PyStr
  GSI2PK : Option PyStr
  GSI2SK : Option PyStr
  GSI3PK : Option PyStr
  GSI3SK : Option PyStr
  item_type : PyStr
  arxiv_id : PyStr
  title : PyStr
  authors : List PyStr
  abstract : PyStr
  categories : List PyStr
  keywords : List PyStr
  published : PyStr
deriving DecidableEq

/-- A physical item: key pair, optional index key pairs, item_type, and the
base_attrs copy of the paper attributes (item.update(base_attrs)). -/
def mkItem (p : Paper) (pk sk : PyStr)
    (g1pk g1sk g2pk g2sk g3pk g3sk : Option PyStr) (ty : PyStr) : Item :=
  { PK := pk, SK := sk,
    GSI1PK := g1pk, GSI1SK := g1sk, GSI2PK := g2pk, GSI2SK := g2sk,
    GSI3PK := g3pk, GSI3SK := g3sk, item_type := ty,
    arxiv_id := p.arxiv_id, title := p.title, authors := p.authors,
    abstract := p.abstract, categories := p.categories,
    keywords := p.keywords, published := p.published }

/-- main lines 201-255: the denormalized items emitted for one paper, in
emission order: one CATEGORY item per category, one AUTHOR item per
non-blank author, one KEYWORD item per non-blank lower-cased keyword, and
the single PAPER identifier item. -/
def denormItems (p : Paper) : List Item :=
  let sk := p.date_str ++ ['#'] ++ p.arxiv_id
  let catItems := p.categories.map (fun cat =>
    mkItem p (pys "CATEGORY#" ++ cat) sk
      none none none none none none (pys "CATEGORY"))
  let authorItems := p.authors.filterMap (fun author =>
    let astr := pyStrip author
    if astr = [] then none
    else some (mkItem p (pys "AUTHOR#" ++ astr) sk
      (some (pys "AUTHOR#" ++ astr)) (some sk) none none none none
      (pys "AUTHOR")))
  let kwItems := p.keywords.filterMap (fun kw =>
    let kstr := pyStrip (pyLower kw)
    if kstr = [] then none
    else some (mkItem p (pys "KEYWORD#" ++ kstr) sk
      none none none none (some (pys "KEYWORD#" ++ kstr)) (some sk)
      (pys "KEYWORD")))
  let idItem := mkItem p (pys "PAPER#" ++ p.arxiv_id) (pys "PAPER")
    none none (some (pys "PAPER#" ++ p.arxiv_id)) (some (pys "PAPER"))
    none none (pys "PAPER")
  catItems ++ authorItems ++ kwItems ++ [idItem]

/-- One loop iteration of main: normalize, then denormalize; none when the
record is skipped for a missing identifier. -/
def processRecord (rec : RawPaper) : Option (List Item) :=
  (normalizeRecord rec).map denormItems

/-- The items emitted by the whole ingest loop, in order; skipped records
contribute nothing and ingestion continues. -/
def ingestItems : List RawPaper → List Item
  | [] => []
  | r :: rs => ((processRecord r).getD []) ++ ingestItems rs

/-!
The store and the query layer (query_papers.py / api_server.py).
The table state is a map from the (PK, SK) primary key pair to the stored
item: batch_writer(overwrite_by_pkeys=("PK", "SK")) makes a put overwrite
the item with the same key pair.
-/

/-- The DynamoDB table contents, keyed by the (PK, SK) pair. -/
def Store := PyStr × PyStr → Option Item

/-- A single put_item through the overwriting batch writer. -/
def upsert (s : Store) (it : Item) : Store :=
  fun k => if k = (it.PK, it.SK) then some it else s k

/-- A sequence of put_item calls, in order. -/
def upsertAll (s : Store) (items : List Item) : Store :=
  items.foldl upsert s

/-- DynamoDB string key order: lexicographic by character (UTF-8 byte order,
which agrees with code-point order on ASCII). -/
def skLt (a b : PyStr) : Prop := List.Lex (· < ·) a b

/-- Non-strict key order. -/
def skLe (a b : PyStr) : Prop := skLt a b ∨ a = b

instance skLtDec : DecidableRel skLt :=
  fun a b => inferInstanceAs (Decidable (List.Lex _ a b))

instance skLeDec : DecidableRel skLe :=
  fun a b => inferInstanceAs (Decidable (_ ∨ _))

/-- Key("PK").eq(pk) and Key("SK").between(lo, hi) on the main table:
DynamoDB BETWEEN is inclusive at both ends.  The table is modelled as the
list of its items. -/
def queryByRange (tbl : List Item) (pk lo hi : PyStr) : List Item :=
  tbl.filter (fun it => decide (it.PK = pk ∧ skLe lo it.SK ∧ skLe it.SK hi))

/-- query_papers.query_papers_in_date_range (the api_server copy is
identical): range query on CATEGORY#category from startDate# to
endDate#zzzzzzz. -/
def query_papers_in_date_range (tbl : List Item) (category startDate endDate : PyStr) : List Item :=
  queryByRange tbl (pys "CATEGORY#" ++ category)
    (startDate ++ ['#']) (endDate ++ pys "#zzzzzzz")

/-- A partition query on GSI2 (PaperIdIndex): items that do not carry the
index key are absent from the index. -/
def queryPaperIdIndex (tbl : List Item) (pk : PyStr) : List Item :=
  tbl.filter (fun it => decide (it.GSI2PK = some pk))

/-- query_papers.get_paper_by_id (the api_server copy is identical):
response Items[0] if any, else None. -/
def get_paper_by_id (tbl : List Item) (arxivId : PyStr) : Option Item :=
  (queryPaperIdIndex tbl (pys "PAPER#" ++ arxivId)).head?

/-- Items of one main-table partition sorted by SK descending and truncated:
query with ScanIndexForward=False and Limit, as in query_recent_in_category. -/
def queryPartitionDesc (tbl : List Item) (pk : PyStr) (lim : Nat) : List Item :=
  (List.insertionSort (fun a b : Item => skLe b.SK a.SK)
    (tbl.filter (fun it => decide (it.PK = pk)))).take lim

/-- api_server.query_recent_in_category. -/
def query_recent_in_category (tbl : List Item) (category : PyStr) (lim : Nat) : List Item :=
  queryPartitionDesc tbl (pys "CATEGORY#" ++ category) lim

/-- api_server.query_papers_by_author: partition query on GSI1
(AuthorIndex).  The index sort order is not modelled; no verified claim
depends on it. -/
def query_papers_by_author (tbl : List Item) (author : PyStr) : List Item :=
  tbl.filter (fun it => decide (it.GSI1PK = some (pys "AUTHOR#" ++ author)))

/-- api_server.query_papers_by_keyword: partition query on GSI3
(KeywordIndex) with Limit, ScanIndexForward=False.  The index sort order is
not modelled; no verified claim depends on it. -/
def query_papers_by_keyword (tbl : List Item) (keyword : PyStr) (lim : Nat) : List Item :=
  (tbl.filter (fun it => decide (it.GSI3PK = some (pys "KEYWORD#" ++ pyLower keyword)))).take lim

/-!
Model of api_server.PaperRequestHandler.do_GET.  The request is a path plus
query-string parameters (parse_qs first values); URL decoding is outside
the model.  Failures raised by the store client inside the try-block are
modelled by an oracle qfail: some message means the next query call raises
an exception whose str() is that message, caught by the outer except which
answers 500.
-/

/-- The first value of each recognised query-string parameter, as
qs.get(name, [None])[0] yields it. -/
structure QueryParams where
  category : Option PyStr
  limit : Option PyStr
  startParam : Option PyStr
  endParam : Option PyStr
deriving DecidableEq

/-- A request with no query-string parameters. -/
def emptyQS : QueryParams := ⟨none, none, none, none⟩

/-- The JSON response bodies do_GET produces, by shape. -/
inductive RespBody where
  | errMsg (error : PyStr)
  | errWithPath (error path : PyStr)
  | errWithId (error arxivId : PyStr)
  | errInternal (error message : PyStr)
  | paperBody (it : Item)
  | listBody (meta : List (PyStr × PyStr)) (count : Nat) (papers : List Item)
deriving DecidableEq

/-- Numeric value of a nonempty all-digit string. -/
def digitsVal (s : PyStr) : Option Nat :=
  if s ≠ [] ∧ s.all (fun c => decide (48 ≤ c.toNat ∧ c.toNat ≤ 57)) then
    some (s.foldl (fun a c => 10 * a + (c.toNat - 48)) 0)
  else none

/-- Model of Python int() on a string: optional sign, then digits, with
surrounding whitespace allowed; none models the ValueError int raises. -/
def pyInt (s : PyStr) : Option Int :=
  match pyStrip s with
  | '-' :: ds => (digitsVal ds).map (fun n => -(n : Int))
  | '+' :: ds => (digitsVal ds).map (fun n => (n : Int))
  | ds => (digitsVal ds).map (fun n => (n : Int))

/-- The str() of the ValueError from int(); the exact text does not matter
to any claim, only that it reaches the response. -/
def intErrMsg (s : PyStr) : PyStr :=
  pys "invalid literal for int() with base 10: " ++ s

/-- Truthiness of an optional string parameter (None and empty are falsy). -/
def strTruthy : Option PyStr → Bool
  | none => false
  | some v => v ≠ []

/-- The 500 response of the outer except-block: the body carries the fixed
error marker and str(e) of the caught exception. -/
def internalErr (msg : PyStr) : Nat × RespBody :=
  (500, RespBody.errInternal (pys "Internal server error") msg)

/-- api_server.PaperRequestHandler.do_GET: route dispatch in source order,
parameter validation, query execution, and the outer exception handler. -/
def doGET (tbl : List Item) (qfail : Option PyStr) (path : PyStr)
    (qs : QueryParams) : Nat × RespBody :=
  if path = pys "/papers/recent" then
    match pyInt ((qs.limit).getD (pys "20")) with
    | none => internalErr (intErrMsg ((qs.limit).getD (pys "20")))
    | some lim =>
      if strTruthy qs.category = false then
        (400, RespBody.errMsg (pys "Missing category parameter"))
      else
        match qfail with
        | some e => internalErr e
        | none =>
          let items := query_recent_in_category tbl ((qs.category).getD []) lim.toNat
          (200, RespBody.listBody [(pys "category", (qs.category).getD [])]
            items.length items)
  else if (pys "/papers/author/").isPrefixOf path then
    let author := path.drop (pys "/papers/author/").length
    match qfail with
    | some e => internalErr e
    | none =>
      let items := query_papers_by_author tbl author
      (200, RespBody.listBody [(pys "author", author)] items.length items)
  else if ((pys "/papers/").isPrefixOf path
      && !(pys "/papers/author/").isPrefixOf path
      && !(pys "/papers/keyword/").isPrefixOf path
      && !(pys "/papers/search").isPrefixOf path) = true then
    let arxivId := path.drop (pys "/papers/").length
    match qfail with
    | some e => internalErr e
    | none =>
      match get_paper_by_id tbl arxivId with
      | some it => (200, RespBody.paperBody it)
      | none => (404, RespBody.errWithId (pys "Paper not found") arxivId)
  else if path = pys "/papers/search" then
    if (strTruthy qs.category && strTruthy qs.startParam && strTruthy qs.endParam) = false then
      (400, RespBody.errMsg (pys "Missing category/start/end parameters"))
    else
      match qfail with
      | some e => internalErr e
      | none =>
        let items := query_papers_in_date_range tbl ((qs.category).getD [])
          ((qs.startParam).getD []) ((qs.endParam).getD [])
        (200, RespBody.listBody
          [(pys "category", (qs.category).getD []),
           (pys "start", (qs.startParam).getD []),
           (pys "end", (qs.endParam).getD [])] items.length items)
  else if (pys "/papers/keyword/").isPrefixOf path then
    let keyword := path.drop (pys "/papers/keyword/").length
    match pyInt ((qs.limit).getD (pys "20")) with
    | none => internalErr (intErrMsg ((qs.limit).getD (pys "20")))
    | some lim =>
      match qfail with
      | some e => internalErr e
      | none =>
        let items := query_papers_by_keyword tbl keyword lim.toNat
        (200, RespBody.listBody [(pys "keyword", keyword)] items.length items)
  else
    (404, RespBody.errWithPath (pys "Unknown endpoint") path)

/-- The route guards of do_GET as one predicate: true exactly when some
branch other than the final unknown-endpoint branch handles the path. -/
def isKnownPath (path : PyStr) : Bool :=
  path = pys "/papers/recent"
  || (pys "/papers/author/").isPrefixOf path
  || ((pys "/papers/").isPrefixOf path
      && !(pys "/papers/author/").isPrefixOf path
      && !(pys "/papers/keyword/").isPrefixOf path
      && !(pys "/papers/search").isPrefixOf path)
  || path = pys "/papers/search"
  || (pys "/papers/keyword/").isPrefixOf path

/-- True exactly when the request reaches a store query call inside the
try-block (all earlier validation passes), so a store failure surfaces. -/
def reachesStore (path : PyStr) (qs : QueryParams) : Bool :=
  if path = pys "/papers/recent" then
    (pyInt ((qs.limit).getD (pys "20"))).isSome && strTruthy qs.category
  else if (pys "/papers/author/").isPrefixOf path then true
  else if (pys "/papers/").isPrefixOf path
      && !(pys "/papers/author/").isPrefixOf path
      && !(pys "/papers/keyword/").isPrefixOf path
      && !(pys "/papers/search").isPrefixOf path then true
  else if path = pys "/papers/search" then
    strTruthy qs.category && strTruthy qs.startParam && strTruthy qs.endParam
  else if (pys "/papers/keyword/").isPrefixOf path then
    (pyInt ((qs.limit).getD (pys "20"))).isSome
  else false

/-- An empty table. -/
def emptyStore : Store := fun _ => none

/-- True when the timestamp string is explicitly marked as UTC (trailing Z
or an explicit +00:00 offset). -/
def isUTCMarked (ts : PyStr) : Bool :=
  (pys "Z").isSuffixOf ts || (pys "+00:00").isSuffixOf ts

/-!
Concrete inputs used by witnesses and counterexamples.
-/

/-- A well-formed raw record with two categories, one blank author entry,
and a three-keyword abstract. -/
def c1Rec : RawPaper :=
  { arxivIdField := some (pys "A1"), idField := none,
    titleField := some (pys "Title"),
    abstractField := some (pys "deep learning deep learning networks"),
    authorsField := JField.listVal [pys "X Y", pys "  "],
    categoriesField := JField.listVal [pys "cs.AI", pys "cs.LG"],
    publishedField := some (pys "2020-01-02") }

/-- The normalized Paper the loader computes for c1Rec. -/
def c1Paper : Paper :=
  { arxiv_id := pys "A1", title := pys "Title",
    abstract := pys "deep learning deep learning networks",
    authors := [pys "X Y", pys "  "],
    categories := [pys "cs.AI", pys "cs.LG"],
    keywords := [pys "deep", pys "learning", pys "networks"],
    date_str := pys "2020-01-02", published := pys "2020-01-02T00:00:00" }

/-- A paper whose identifier lexicographically exceeds the zzzzzzz
sort-key suffix used by the date-range query. -/
def c3Paper : Paper :=
  { arxiv_id := pys "zzzzzzzz", title := pys "T", abstract := [],
    authors := [], categories := [pys "cs.AI"], keywords := [],
    date_str := pys "2020-01-02", published := pys "2020-01-02T00:00:00" }

/-- The CATEGORY item the loader writes for c3Paper. -/
def c3Item : Item :=
  mkItem c3Paper (pys "CATEGORY#cs.AI") (pys "2020-01-02#zzzzzzzz")
    none none none none none none (pys "CATEGORY")

/-- A CATEGORY item with an ordinary arXiv identifier, published on the
start date of the witness query. -/
def c3wItem : Item :=
  mkItem c3Paper (pys "CATEGORY#cs.AI") (pys "2020-01-01#1801.00001")
    none none none none none none (pys "CATEGORY")

/-- A record whose arxiv_id is whitespace-only (truthy in Python, blank
after trimming) while its id field is usable. -/
def c4Rec : RawPaper :=
  { arxivIdField := some [' '], idField := some (pys "A1"),
    titleField := none, abstractField := none,
    authorsField := JField.absent, categoriesField := JField.absent,
    publishedField := none }

/-- The item list the loader derives from c1Rec. -/
def c6Items : List Item := (processRecord c1Rec).getD []

/-- The first item denormItems produces for c1Paper (the cs.AI CATEGORY
item). -/
def c7FirstItem : Item :=
  mkItem c1Paper (pys "CATEGORY#cs.AI") (pys "2020-01-02#A1")
    none none none none none none (pys "CATEGORY")

/-!
Helper lemmas.
-/

theorem charToNat_ofNat (n : Nat) (hv : n.isValidChar) :
    (Char.ofNat n).toNat = n := by
  simp [Char.ofNat, hv, Char.ofNatAux, Char.toNat]
  rfl

theorem digitChar_toNat (k : Nat) (h : k ≤ 9) : (digitChar k).toNat = 48 + k := by
  unfold digitChar
  exact charToNat_ofNat (48 + k) (Or.inl (by omega))

theorem digitChar_ne_plus (k : Nat) (h : k ≤ 9) : digitChar k ≠ '+' := by
  intro he
  have : (digitChar k).toNat = 43 := by rw [he]; rfl
  rw [digitChar_toNat k h] at this
  omega

theorem lowerChar_eq_self_of_lower (c : Char) (h : isLowerAlpha c = true) :
    lowerChar c = c := by
  unfold lowerChar
  unfold isLowerAlpha at h
  simp only [Bool.and_eq_true, decide_eq_true_eq] at h
  rw [if_neg (by omega)]

theorem lowerChar_lower (c : Char) (h : isAsciiAlpha (lowerChar c) = true) :
    isLowerAlpha (lowerChar c) = true := by
  unfold lowerChar at h ⊢
  by_cases hu : 65 ≤ c.toNat ∧ c.toNat ≤ 90
  · rw [if_pos hu] at h ⊢
    unfold isLowerAlpha
    have ht : (Char.ofNat (c.toNat + 32)).toNat = c.toNat + 32 :=
      charToNat_ofNat _ (Or.inl (by omega))
    simp only [Bool.and_eq_true, decide_eq_true_eq, ht]
    omega
  · rw [if_neg hu] at h ⊢
    unfold isAsciiAlpha at h
    unfold isLowerAlpha
    simp only [Bool.or_eq_true, Bool.and_eq_true, decide_eq_true_eq] at h ⊢
    omega

theorem mem_pyLower (c : Char) (s : PyStr) (h : c ∈ pyLower s) :
    ∃ c0, c = lowerChar c0 := by
  unfold pyLower at h
  obtain ⟨c0, _, rfl⟩ := List.mem_map.1 h
  exact ⟨c0, rfl⟩

theorem dropWhile_eq_self_of_all {p : Char → Bool} {l : PyStr}
    (h : ∀ c ∈ l, p c = false) : l.dropWhile p = l := by
  cases l with
  | nil => rfl
  | cons c cs =>
    rw [List.dropWhile_cons, if_neg]
    simp [h c (List.mem_cons_self c cs)]

theorem pyStrip_eq_self_of_no_space {l : PyStr}
    (h : ∀ c ∈ l, isPySpace c = false) : pyStrip l = l := by
  unfold pyStrip
  rw [dropWhile_eq_self_of_all h,
      dropWhile_eq_self_of_all (fun c hc => h c (List.mem_reverse.1 hc)),
      List.reverse_reverse]

theorem lower_not_space (c : Char) (h : isLowerAlpha c = true) :
    isPySpace c = false := by
  unfold isLowerAlpha at h
  unfold isPySpace
  simp only [Bool.and_eq_true, decide_eq_true_eq] at h
  simp only [Bool.or_eq_false_iff, decide_eq_false_iff_not]
  omega

theorem findAlphaRuns_tok (s : PyStr) :
    ∀ cur tok, (∀ c ∈ cur, isAsciiAlpha c = true) →
      tok ∈ findAlphaRuns s cur →
      tok ≠ [] ∧ ∀ c ∈ tok, isAsciiAlpha c = true := by
  induction s with
  | nil =>
    intro cur tok hcur htok
    unfold findAlphaRuns at htok
    by_cases hc : cur = []
    · simp [hc] at htok
    · rw [if_neg hc] at htok
      simp only [List.mem_singleton] at htok
      subst htok
      refine ⟨by simpa using hc, ?_⟩
      intro c hc2
      exact hcur c (List.mem_reverse.1 hc2)
  | cons a rest ih =>
    intro cur tok hcur htok
    unfold findAlphaRuns at htok
    by_cases ha : isAsciiAlpha a = true
    · rw [if_pos ha] at htok
      exact ih (a :: cur) tok
        (fun c hc => by rcases List.mem_cons.1 hc with rfl | hc; exact ha; exact hcur c hc)
        htok
    · rw [if_neg ha] at htok
      by_cases hc : cur = []
      · rw [if_pos hc] at htok
        exact ih [] tok (by simp) htok
      · rw [if_neg hc] at htok
        rcases List.mem_cons.1 htok with rfl | htok
        · refine ⟨by simpa using hc, ?_⟩
          intro c hc2
          exact hcur c (List.mem_reverse.1 hc2)
        · exact ih [] tok (by simp) htok

theorem findAlphaRuns_chars (s : PyStr) :
    ∀ cur tok c, tok ∈ findAlphaRuns s cur → c ∈ tok → c ∈ s ∨ c ∈ cur := by
  induction s with
  | nil =>
    intro cur tok c htok hc
    unfold findAlphaRuns at htok
    by_cases h : cur = []
    · simp [h] at htok
    · rw [if_neg h] at htok
      simp only [List.mem_singleton] at htok
      subst htok
      exact Or.inr (List.mem_reverse.1 hc)
  | cons a rest ih =>
    intro cur tok c htok hc
    unfold findAlphaRuns at htok
    by_cases ha : isAsciiAlpha a = true
    · rw [if_pos ha] at htok
      rcases ih (a :: cur) tok c htok hc with h | h
      · exact Or.inl (List.mem_cons_of_mem a h)
      · rcases List.mem_cons.1 h with h | h
        · exact Or.inl (by rw [h]; exact List.mem_cons_self a rest)
        · exact Or.inr h
    · rw [if_neg ha] at htok
      by_cases hcur : cur = []
      · rw [if_pos hcur] at htok
        rcases ih [] tok c htok hc with h | h
        · exact Or.inl (List.mem_cons_of_mem a h)
        · simp at h
      · rw [if_neg hcur] at htok
        rcases List.mem_cons.1 htok with rfl | htok
        · exact Or.inr (List.mem_reverse.1 hc)
        · rcases ih [] tok c htok hc with h | h
          · exact Or.inl (List.mem_cons_of_mem a h)
          · simp at h

theorem tokenize_tok {s tok : PyStr} (h : tok ∈ tokenize s) :
    tok ≠ [] ∧ (∀ c ∈ tok, isAsciiAlpha c = true) ∧ ∀ c ∈ tok, c ∈ s := by
  obtain ⟨h1, h2⟩ := findAlphaRuns_tok s [] tok (by simp) h
  refine ⟨h1, h2, fun c hc => ?_⟩
  rcases findAlphaRuns_chars s [] tok c h hc with h3 | h3
  · exact h3
  · simp at h3

theorem tokenize_pyLower_tok {s tok : PyStr} (h : tok ∈ tokenize (pyLower s)) :
    tok ≠ [] ∧ ∀ c ∈ tok, isLowerAlpha c = true := by
  obtain ⟨h1, h2, h3⟩ := tokenize_tok h
  refine ⟨h1, fun c hc => ?_⟩
  obtain ⟨c0, rfl⟩ := mem_pyLower c s (h3 c hc)
  exact lowerChar_lower c0 (h2 _ hc)

theorem mem_firstOccsAux (l : List PyStr) :
    ∀ seen a, a ∈ firstOccsAux l seen ↔ a ∈ l ∧ a ∉ seen := by
  induction l with
  | nil => intro seen a; simp [firstOccsAux]
  | cons x xs ih =>
    intro seen a
    unfold firstOccsAux
    by_cases hx : x ∈ seen
    · rw [if_pos hx, ih]
      constructor
      · rintro ⟨h1, h2⟩
        exact ⟨List.mem_cons_of_mem x h1, h2⟩
      · rintro ⟨h1, h2⟩
        rcases List.mem_cons.1 h1 with rfl | h1
        · exact absurd hx h2
        · exact ⟨h1, h2⟩
    · rw [if_neg hx]
      constructor
      · intro h
        rcases List.mem_cons.1 h with rfl | h
        · exact ⟨List.mem_cons_self a xs, hx⟩
        · rw [ih] at h
          refine ⟨List.mem_cons_of_mem x h.1, fun hs => h.2 (List.mem_cons_of_mem x hs)⟩
      · rintro ⟨h1, h2⟩
        rcases List.mem_cons.1 h1 with rfl | h1
        · exact List.mem_cons_self a _
        · by_cases hax : a = x
          · subst hax; exact List.mem_cons_self a _
          · refine List.mem_cons_of_mem x ((ih (x :: seen) a).2 ⟨h1, ?_⟩)
            intro hs
            rcases List.mem_cons.1 hs with h | h
            · exact hax h
            · exact h2 h

theorem nodup_firstOccsAux (l : List PyStr) :
    ∀ seen, (firstOccsAux l seen).Nodup := by
  induction l with
  | nil => intro seen; simp [firstOccsAux]
  | cons x xs ih =>
    intro seen
    unfold firstOccsAux
    by_cases hx : x ∈ seen
    · rw [if_pos hx]; exact ih seen
    · rw [if_neg hx]
      refine List.Nodup.cons ?_ (ih (x :: seen))
      intro hmem
      exact ((mem_firstOccsAux xs (x :: seen) x).1 hmem).2 (List.mem_cons_self x seen)

theorem mem_firstOccurrences {l : List PyStr} {a : PyStr} :
    a ∈ firstOccurrences l ↔ a ∈ l := by
  unfold firstOccurrences
  rw [mem_firstOccsAux]
  simp

theorem nodup_firstOccurrences (l : List PyStr) : (firstOccurrences l).Nodup :=
  nodup_firstOccsAux l []

theorem mostCommon_sublist_sorted (tokens : List PyStr) (n : Nat) :
    (mostCommon tokens n).Sublist
      (List.insertionSort (mcRank tokens) (firstOccurrences tokens)) :=
  List.take_sublist n _

theorem mostCommon_pairwise (tokens : List PyStr) (n : Nat) :
    List.Pairwise (mcRank tokens) (mostCommon tokens n) :=
  List.Pairwise.sublist (mostCommon_sublist_sorted tokens n)
    (List.sorted_insertionSort (mcRank tokens) (firstOccurrences tokens))

theorem mostCommon_nodup (tokens : List PyStr) (n : Nat) :
    (mostCommon tokens n).Nodup :=
  List.Nodup.sublist (mostCommon_sublist_sorted tokens n)
    (((List.perm_insertionSort (mcRank tokens) (firstOccurrences tokens)).symm).nodup
      (nodup_firstOccurrences tokens))

theorem mem_mostCommon {tokens : List PyStr} {n : Nat} {t : PyStr}
    (h : t ∈ mostCommon tokens n) : t ∈ tokens := by
  have h1 : t ∈ List.insertionSort (mcRank tokens) (firstOccurrences tokens) :=
    (mostCommon_sublist_sorted tokens n).mem h
  have h2 := (List.perm_insertionSort (mcRank tokens) (firstOccurrences tokens)).mem_iff.1 h1
  exact mem_firstOccurrences.1 h2

theorem mostCommon_length_le (tokens : List PyStr) (n : Nat) :
    (mostCommon tokens n).length ≤ n := by
  unfold mostCommon
  rw [List.length_take]
  omega

theorem upsertAll_apply (items : List Item) (s : Store) (k : PyStr × PyStr) :
    upsertAll s items k =
      match items.reverse.find? (fun it => decide ((it.PK, it.SK) = k)) with
      | some it => some it
      | none => s k := by
  induction items generalizing s with
  | nil => rfl
  | cons it rest ih =>
    show upsertAll (upsert s it) rest k = _
    rw [ih (upsert s it)]
    rw [List.reverse_cons, List.find?_append]
    cases hf : rest.reverse.find? (fun j => decide ((j.PK, j.SK) = k)) with
    | some j => rfl
    | none =>
      show upsert s it k = _
      unfold upsert
      by_cases hk : (it.PK, it.SK) = k
      · rw [if_pos hk.symm]
        simp [List.find?, hk]
      · rw [if_neg (fun he => hk he.symm)]
        simp [List.find?, hk]

theorem upsertAll_idem (s : Store) (items : List Item) :
    upsertAll (upsertAll s items) items = upsertAll s items := by
  funext k
  rw [upsertAll_apply items (upsertAll s items) k, upsertAll_apply items s k]
  cases hf : items.reverse.find? (fun it => decide ((it.PK, it.SK) = k)) with
  | some j => rfl
  | none => rfl

theorem skLe_refl (a : PyStr) : skLe a a := Or.inr rfl

theorem skLe_nil (l : PyStr) : skLe [] l := by
  cases l with
  | nil => exact Or.inr rfl
  | cons c cs => exact Or.inl List.Lex.nil

theorem skLe_cons (c : Char) {a b : PyStr} (h : skLe a b) : skLe (c :: a) (c :: b) := by
  rcases h with h | h
  · exact Or.inl (List.Lex.cons h)
  · rw [h]
    exact Or.inr rfl

theorem skLe_append_self (l t : PyStr) : skLe l (l ++ t) := by
  induction l with
  | nil => exact skLe_nil t
  | cons c cs ih => exact skLe_cons c ih

theorem skLe_append_left (a x y : PyStr) (h : skLe x y) : skLe (a ++ x) (a ++ y) := by
  induction a with
  | nil => exact h
  | cons c cs ih => exact skLe_cons c ih

theorem skLt_append_of_lt {a b : PyStr} (h : skLt a b) (hlen : a.length = b.length)
    (x y : PyStr) : skLt (a ++ x) (b ++ y) := by
  induction h generalizing x y with
  | nil => simp at hlen
  | rel hr => exact List.Lex.rel hr
  | cons h2 ih =>
    refine List.Lex.cons ?_
    exact ih (by simpa using hlen) x y

theorem skLe_append {a b x y : PyStr} (h : skLe a b) (hlen : a.length = b.length)
    (h2 : skLe x y) : skLe (a ++ x) (b ++ y) := by
  rcases h with h | h
  · exact Or.inl (skLt_append_of_lt h hlen x y)
  · rw [h]
    exact skLe_append_left b x y h2

theorem length_filterMap_eq_countP {α β : Type} (f : α → Option β) (l : List α) :
    (l.filterMap f).length = l.countP (fun a => (f a).isSome) := by
  induction l with
  | nil => rfl
  | cons a as ih =>
    rw [List.filterMap_cons, List.countP_cons]
    cases hf : f a with
    | none => simp [hf, ih]
    | some b => simp [hf, ih]

theorem mem_extract_keywords_mem_tokens {a t : PyStr} {n : Nat}
    (h : t ∈ extract_keywords a n) : t ∈ keywordTokens a := by
  unfold extract_keywords at h
  by_cases h1 : a = []
  · simp [h1] at h
  · rw [if_neg h1] at h
    by_cases h2 : keywordTokens a = []
    · simp [h2] at h
    · rw [if_neg h2] at h
      exact mem_mostCommon h

theorem keywordTokens_mem {a t : PyStr} (h : t ∈ keywordTokens a) :
    t ∈ tokenize (pyLower a) ∧ t ∉ STOPWORDS := by
  unfold keywordTokens at h
  obtain ⟨h1, h2⟩ := List.mem_filter.1 h
  exact ⟨h1, of_decide_eq_true h2⟩

theorem extract_keywords_lower {a t : PyStr} {n : Nat}
    (h : t ∈ extract_keywords a n) :
    t ≠ [] ∧ ∀ c ∈ t, isLowerAlpha c = true := by
  have h1 := (keywordTokens_mem (mem_extract_keywords_mem_tokens h)).1
  exact tokenize_pyLower_tok h1

theorem extract_keywords_strip_lower {a t : PyStr} {n : Nat}
    (h : t ∈ extract_keywords a n) : pyStrip (pyLower t) = t ∧ t ≠ [] := by
  obtain ⟨h1, h2⟩ := extract_keywords_lower h
  have hmap : pyLower t = t := by
    unfold pyLower
    rw [List.map_congr_left (fun c hc => lowerChar_eq_self_of_lower c (h2 c hc))]
    exact List.map_id t
  rw [hmap]
  exact ⟨pyStrip_eq_self_of_no_space (fun c hc => lower_not_space c (h2 c hc)), h1⟩

/-!
Claim theorems.
-/

/-- C6: re-ingesting the same raw record is idempotent: the items derived
from a record are a pure function of its content, and upserting them twice
(overwrite by the (PK, SK) pair) leaves the same final store as upserting
them once, from any starting store. -/
theorem C6_reingest_idempotent (s : Store) (rec : RawPaper) (items : List Item)
    (h : processRecord rec = some items) :
    upsertAll (upsertAll s items) items = upsertAll s items :=
  upsertAll_idem s items

/-- C6 witness: idempotence at the concrete record c1Rec over the empty
store. -/
theorem C6_witness :
    upsertAll (upsertAll emptyStore c6Items) c6Items = upsertAll emptyStore c6Items :=
  C6_reingest_idempotent emptyStore c1Rec c6Items (by decide)

/-- C7: every item denormalized from one paper carries identical copies of
the title, abstract, authors, categories, keywords and published-timestamp
attributes of that paper. -/
theorem C7_items_share_attrs (p : Paper) :
    ∀ it ∈ denormItems p,
      it.title = p.title ∧ it.abstract = p.abstract ∧ it.authors = p.authors ∧
      it.categories = p.categories ∧ it.keywords = p.keywords ∧
      it.published = p.published := by
  intro it hit
  simp only [denormItems, List.mem_append, List.mem_map, List.mem_filterMap,
    List.mem_singleton] at hit
  rcases hit with ((⟨cat, hc, rfl⟩ | ⟨au, hau, heq⟩) | ⟨kw, hkw, heq⟩) | rfl
  · exact ⟨rfl, rfl, rfl, rfl, rfl, rfl⟩
  · split at heq
    · exact absurd heq (by simp)
    · cases Option.some.inj heq
      exact ⟨rfl, rfl, rfl, rfl, rfl, rfl⟩
  · split at heq
    · exact absurd heq (by simp)
    · cases Option.some.inj heq
      exact ⟨rfl, rfl, rfl, rfl, rfl, rfl⟩
  · exact ⟨rfl, rfl, rfl, rfl, rfl, rfl⟩

/-- C7 witness: the attribute copies coincide on the first denormalized
item of the concrete paper c1Paper. -/
theorem C7_witness :
    c7FirstItem.title = c1Paper.title ∧
    c7FirstItem.abstract = c1Paper.abstract ∧
    c7FirstItem.authors = c1Paper.authors ∧
    c7FirstItem.categories = c1Paper.categories ∧
    c7FirstItem.keywords = c1Paper.keywords ∧
    c7FirstItem.published = c1Paper.published :=
  C7_items_share_attrs c1Paper c7FirstItem (by decide)

/-- C10: for every abstract and maximum count, the extracted keywords are
pairwise distinct, and each keyword is a nonempty all-lower-case alphabetic
string that is not a stop word. -/
theorem C10_keyword_invariants (abstract : PyStr) (n : Nat) :
    (extract_keywords abstract n).Nodup ∧
    ∀ t ∈ extract_keywords abstract n,
      t ≠ [] ∧ (∀ c ∈ t, isLowerAlpha c = true) ∧ t ∉ STOPWORDS := by
  constructor
  · unfold extract_keywords
    split
    · exact List.nodup_nil
    · split
      · exact List.nodup_nil
      · exact mostCommon_nodup _ _
  · intro t ht
    obtain ⟨h1, h2⟩ := extract_keywords_lower ht
    exact ⟨h1, h2, (keywordTokens_mem (mem_extract_keywords_mem_tokens ht)).2⟩

/-- C10 witness: the keyword deep extracted from a concrete abstract is
nonempty, lower-case alphabetic, and not a stop word. -/
theorem C10_witness :
    pys "deep" ≠ [] ∧ (∀ c ∈ pys "deep", isLowerAlpha c = true) ∧
    pys "deep" ∉ STOPWORDS :=
  (C10_keyword_invariants (pys "deep learning deep") 10).2 (pys "deep") (by decide)

theorem firstIdx_inj {l : List PyStr} {a b : PyStr} (ha : a ∈ l) (hb : b ∈ l)
    (h : firstIdx l a = firstIdx l b) : a = b := by
  induction l with
  | nil => cases ha
  | cons x xs ih =>
    unfold firstIdx at h
    rw [List.takeWhile_cons, List.takeWhile_cons] at h
    by_cases hxa : x = a
    · by_cases hxb : x = b
      · rw [← hxa, ← hxb]
      · rw [if_neg (by simp [hxa]), if_pos (by simp [hxb])] at h
        simp at h
    · by_cases hxb : x = b
      · rw [if_pos (by simp [hxa]), if_neg (by simp [hxb])] at h
        simp at h
      · rw [if_pos (by simp [hxa]), if_pos (by simp [hxb])] at h
        simp only [List.length_cons, Nat.succ.injEq] at h
        have ha2 : a ∈ xs := by
          rcases List.mem_cons.1 ha with h2 | h2
          · exact absurd h2.symm hxa
          · exact h2
        have hb2 : b ∈ xs := by
          rcases List.mem_cons.1 hb with h2 | h2
          · exact absurd h2.symm hxb
          · exact h2
        exact ih ha2 hb2 h

/-- C2: keyword extraction lowercases the text, tokenizes maximal alphabetic
runs, discards stop words, and returns at most n keywords in descending
frequency order with ties broken by first occurrence (smaller first index in
the non-stopword token list); empty or all-stopword input yields the empty
list. -/
theorem C2_extract_keywords_spec (abstract : PyStr) (n : Nat) :
    (extract_keywords abstract n).length ≤ n ∧
    List.Pairwise (fun a b =>
      (keywordTokens abstract).count b < (keywordTokens abstract).count a ∨
        ((keywordTokens abstract).count a = (keywordTokens abstract).count b ∧
          firstIdx (keywordTokens abstract) a < firstIdx (keywordTokens abstract) b))
      (extract_keywords abstract n) ∧
    (∀ t ∈ extract_keywords abstract n,
      t ∈ tokenize (pyLower abstract) ∧ t ∉ STOPWORDS) ∧
    ((abstract = [] ∨ keywordTokens abstract = []) →
      extract_keywords abstract n = []) := by
  refine ⟨?_, ?_, ?_, ?_⟩
  · unfold extract_keywords
    split
    · simp
    · split
      · simp
      · exact mostCommon_length_le _ _
  · have hmem : ∀ t ∈ extract_keywords abstract n, t ∈ keywordTokens abstract :=
      fun t ht => mem_extract_keywords_mem_tokens ht
    have hstrict : List.Pairwise
        (fun a b => mcRank (keywordTokens abstract) a b ∧ a ≠ b)
        (extract_keywords abstract n) := by
      unfold extract_keywords
      split
      · exact List.Pairwise.nil
      · split
        · exact List.Pairwise.nil
        · exact List.Pairwise.and (mostCommon_pairwise _ _) (mostCommon_nodup _ _)
    refine List.Pairwise.imp_of_mem ?_ hstrict
    intro a b ha hb hr
    rcases hr.1 with h | h
    · exact Or.inl h
    · refine Or.inr ⟨h.1, Nat.lt_of_le_of_ne h.2 ?_⟩
      intro he
      exact hr.2 (firstIdx_inj (hmem a ha) (hmem b hb) he)
  · intro t ht
    exact keywordTokens_mem (mem_extract_keywords_mem_tokens ht)
  · intro h
    unfold extract_keywords
    rcases h with h | h
    · rw [if_pos h]
    · by_cases h1 : abstract = []
      · rw [if_pos h1]
      · rw [if_neg h1, if_pos h]

/-- C2 witness: the specification applied at a concrete abstract; the token
deep of the result is a token of the lower-cased text and not a stop word,
and the empty abstract yields no keywords. -/
theorem C2_witness :
    (pys "deep" ∈ tokenize (pyLower (pys "deep learning the deep")) ∧
      pys "deep" ∉ STOPWORDS) ∧
    extract_keywords [] 10 = [] :=
  ⟨(C2_extract_keywords_spec (pys "deep learning the deep") 10).2.2.1
      (pys "deep") (by decide),
   (C2_extract_keywords_spec [] 10).2.2.2 (Or.inl rfl)⟩

/-- C1: for every raw record the pipeline accepts (non-blank identifier),
denormalization emits exactly c + a + k + 1 items: one CATEGORY item per
category entry, one AUTHOR item per author entry that is non-blank after
trimming, one KEYWORD item per extracted keyword, and one identifier
item. -/
theorem C1_item_count (rec : RawPaper) (p : Paper)
    (h : normalizeRecord rec = some p) :
    (denormItems p).length =
      p.categories.length
      + p.authors.countP (fun a => decide (pyStrip a ≠ []))
      + p.keywords.length + 1 := by
  have hkw : p.keywords = extract_keywords p.abstract 10 := by
    unfold normalizeRecord at h
    by_cases ha : resolveIdentifier rec = []
    · simp [ha] at h
    · rw [if_neg ha] at h
      cases Option.some.inj h
      rfl
  unfold denormItems
  simp only [List.length_append, List.length_map, List.length_singleton]
  have hauth : (p.authors.filterMap (fun author =>
      let astr := pyStrip author
      if astr = [] then none
      else some (mkItem p (pys "AUTHOR#" ++ astr)
        (p.date_str ++ ['#'] ++ p.arxiv_id)
        (some (pys "AUTHOR#" ++ astr)) (some (p.date_str ++ ['#'] ++ p.arxiv_id))
        none none none none (pys "AUTHOR")))).length
      = p.authors.countP (fun a => decide (pyStrip a ≠ [])) := by
    rw [length_filterMap_eq_countP]
    refine List.countP_congr ?_
    intro a _
    by_cases hb : pyStrip a = []
    · simp [hb]
    · simp [hb]
  have hkwlen : (p.keywords.filterMap (fun kw =>
      let kstr := pyStrip (pyLower kw)
      if kstr = [] then none
      else some (mkItem p (pys "KEYWORD#" ++ kstr)
        (p.date_str ++ ['#'] ++ p.arxiv_id)
        none none none none (some (pys "KEYWORD#" ++ kstr))
        (some (p.date_str ++ ['#'] ++ p.arxiv_id)) (pys "KEYWORD")))).length
      = p.keywords.length := by
    rw [length_filterMap_eq_countP]
    rw [List.countP_eq_length]
    intro kw hmem
    have := (extract_keywords_strip_lower (hkw ▸ hmem)).1
    have hne : pyStrip (pyLower kw) ≠ [] := by
      rw [this]
      exact (extract_keywords_strip_lower (hkw ▸ hmem)).2
    simp [hne]
  rw [hauth, hkwlen]

/-- C1 witness: the item count at the concrete record c1Rec, which has two
categories, one non-blank author out of two entries, and three keywords. -/
theorem C1_witness :
    (denormItems c1Paper).length =
      c1Paper.categories.length
      + c1Paper.authors.countP (fun a => decide (pyStrip a ≠ []))
      + c1Paper.keywords.length + 1 :=
  C1_item_count c1Rec c1Paper (by decide)

/-- C4 counterexample: a record whose arxiv_id is a whitespace-only string
(blank after trimming) and whose id field is a non-blank string is skipped
entirely, not ingested under the id; the claim as stated requires it to be
ingested under A1. -/
theorem C4_counterexample :
    c4Rec.arxivIdField = some [' '] ∧ pyStrip [' '] = [] ∧
    c4Rec.idField = some (pys "A1") ∧ pyStrip (pys "A1") ≠ [] ∧
    processRecord c4Rec = none := by
  decide

/-- C4 amended: the identifier is the first present non-empty (truthy)
value among arxiv_id and id, then trimmed; a record whose chosen value is
blank after trimming is skipped, and ingestion continues with the remaining
records.  The fall-through to id happens only when arxiv_id is absent or
the empty string, not when it is whitespace-only. -/
theorem C4_identifier_resolution (rec : RawPaper) :
    (∀ v, rec.arxivIdField = some v → v ≠ [] →
      resolveIdentifier rec = pyStrip v) ∧
    ((rec.arxivIdField = none ∨ rec.arxivIdField = some []) →
      ∀ w, rec.idField = some w → w ≠ [] →
        resolveIdentifier rec = pyStrip w) ∧
    (resolveIdentifier rec = [] → processRecord rec = none) ∧
    (resolveIdentifier rec ≠ [] →
      ∃ p, normalizeRecord rec = some p ∧
        p.arxiv_id = resolveIdentifier rec) ∧
    (∀ rs, processRecord rec = none →
      ingestItems (rec :: rs) = ingestItems rs) := by
  refine ⟨?_, ?_, ?_, ?_, ?_⟩
  · intro v hv hne
    unfold resolveIdentifier orElseStr
    rw [hv]
    simp [hne]
  · intro ha w hw hne
    unfold resolveIdentifier orElseStr
    rcases ha with ha | ha
    · rw [ha, hw]
      simp [hne]
    · rw [ha, hw]
      simp [hne]
  · intro h
    unfold processRecord normalizeRecord
    rw [if_pos h]
    rfl
  · intro h
    unfold normalizeRecord
    rw [if_neg h]
    exact ⟨_, rfl, rfl⟩
  · intro rs h
    show (processRecord rec).getD [] ++ ingestItems rs = ingestItems rs
    rw [h]
    rfl

/-- C4 witness: resolution and skip behaviour at concrete records: a record
with arxiv_id equal to the empty string and id equal to A1 resolves to A1,
and the blank record c4Rec is skipped while ingestion of a following record
continues. -/
theorem C4_witness :
    resolveIdentifier
      { arxivIdField := some [], idField := some (pys "A1"),
        titleField := none, abstractField := none,
        authorsField := JField.absent, categoriesField := JField.absent,
        publishedField := none } = pyStrip (pys "A1") ∧
    ingestItems [c4Rec, c1Rec] = ingestItems [c1Rec] := by
  constructor
  · exact (C4_identifier_resolution _).2.1 (Or.inr rfl) (pys "A1") rfl (by decide)
  · exact (C4_identifier_resolution c4Rec).2.2.2.2 [c1Rec] (by decide)

/-- C3 counterexample: the upper bound suffix is zzzzzzz, not a suffix
above every identifier: the CATEGORY item of a paper with identifier
zzzzzzzz published exactly on the end date is excluded from the range
query result, contradicting inclusion for every identifier value. -/
theorem C3_counterexample :
    c3Item ∈ denormItems c3Paper ∧
    c3Item.SK = pys "2020-01-02" ++ ['#'] ++ c3Paper.arxiv_id ∧
    query_papers_in_date_range [c3Item] (pys "cs.AI")
      (pys "2020-01-01") (pys "2020-01-02") = [] := by
  refine ⟨by decide, by decide, ?_⟩
  decide

/-- C3 amended: the range query uses the bounds startDate# and
endDate#zzzzzzz, both compared inclusively; a category item whose sort key
is date#id with date equal to the start or the end date is returned
whenever the dates have equal length, startDate is at most endDate, and the
identifier is lexicographically at most zzzzzzz (true of standard arXiv
identifiers, but not of every identifier value). -/
theorem C3_date_range_inclusive (tbl : List Item) (cat s e id d : PyStr)
    (it : Item) (hmem : it ∈ tbl)
    (hpk : it.PK = pys "CATEGORY#" ++ cat)
    (hsk : it.SK = d ++ ['#'] ++ id)
    (hd : d = s ∨ d = e)
    (hlen : s.length = e.length)
    (hse : skLe s e)
    (hid : skLe id (pys "zzzzzzz")) :
    it ∈ query_papers_in_date_range tbl cat s e := by
  unfold query_papers_in_date_range queryByRange
  rw [List.mem_filter]
  refine ⟨hmem, ?_⟩
  rw [decide_eq_true_iff]
  have hcons : skLe (['#'] ++ id) (['#'] ++ pys "zzzzzzz") :=
    skLe_append_left ['#'] id (pys "zzzzzzz") hid
  have hhi : skLe it.SK (e ++ pys "#zzzzzzz") := by
    rw [hsk, List.append_assoc]
    have h2 : skLe (d ++ (['#'] ++ id)) (e ++ (['#'] ++ pys "zzzzzzz")) := by
      rcases hd with rfl | rfl
      · exact skLe_append hse hlen hcons
      · exact skLe_append (skLe_refl d) rfl hcons
    exact h2
  have hlo : skLe (s ++ ['#']) it.SK := by
    rw [hsk]
    rcases hd with rfl | rfl
    · rw [List.append_assoc]
      have := skLe_append_self (d ++ ['#']) id
      rw [List.append_assoc] at this
      exact this
    · have h3 : skLe (s ++ (['#'] ++ [])) (d ++ (['#'] ++ id)) :=
        skLe_append hse hlen
          (skLe_append_left ['#'] [] id (skLe_nil id))
      rw [List.append_assoc]
      simpa using h3
  exact ⟨hpk, hlo, hhi⟩

/-- C3 witness: an item with an ordinary arXiv identifier published on the
start date is included in a concrete range query. -/
theorem C3_witness :
    c3wItem ∈ query_papers_in_date_range [c3wItem] (pys "cs.AI")
      (pys "2020-01-01") (pys "2020-01-05") :=
  C3_date_range_inclusive [c3wItem] (pys "cs.AI")
    (pys "2020-01-01") (pys "2020-01-05") (pys "1801.00001")
    (pys "2020-01-01") c3wItem (by decide) (by decide) (by decide)
    (Or.inl rfl) (by decide) (by decide) (by decide)

/-- C8: the by-identifier query returns at most one result: none exactly
when no stored item carries the PaperIdIndex key for the id, and some
first matching item otherwise; at the HTTP layer the same request answers
404 with a structured body in the none case and 200 with the item
otherwise, with no exception involved. -/
theorem C8_by_id_lookup (tbl : List Item) (id : PyStr) :
    (get_paper_by_id tbl id = none ↔
      ∀ it ∈ tbl, it.GSI2PK ≠ some (pys "PAPER#" ++ id)) ∧
    (∀ it, get_paper_by_id tbl id = some it →
      it ∈ tbl ∧ it.GSI2PK = some (pys "PAPER#" ++ id)) ∧
    (∀ path qs, path = pys "/papers/" ++ id →
      path ≠ pys "/papers/recent" →
      (pys "/papers/author/").isPrefixOf path = false →
      (pys "/papers/keyword/").isPrefixOf path = false →
      (pys "/papers/search").isPrefixOf path = false →
      doGET tbl none path qs =
        (match get_paper_by_id tbl id with
         | some it => (200, RespBody.paperBody it)
         | none => (404, RespBody.errWithId (pys "Paper not found") id))) := by
  refine ⟨?_, ?_, ?_⟩
  · unfold get_paper_by_id queryPaperIdIndex
    rw [List.head?_eq_none_iff, List.filter_eq_nil_iff]
    constructor
    · intro h it hmem he
      exact h it hmem (by simp [he])
    · intro h it hmem hdec
      exact h it hmem (of_decide_eq_true hdec)
  · intro it h
    unfold get_paper_by_id at h
    cases hf : queryPaperIdIndex tbl (pys "PAPER#" ++ id) with
    | nil => rw [hf] at h; cases h
    | cons a rest =>
      rw [hf] at h
      cases Option.some.inj h
      have hmem : it ∈ queryPaperIdIndex tbl (pys "PAPER#" ++ id) := by
        rw [hf]; exact List.mem_cons_self it rest
      obtain ⟨h1, h2⟩ := List.mem_filter.1 hmem
      exact ⟨h1, of_decide_eq_true h2⟩
  · intro path qs hpath hrec hauth hkw hsearch
    have hpre : (pys "/papers/").isPrefixOf path = true := by
      rw [hpath, List.isPrefixOf_iff_prefix]
      exact List.prefix_append _ _
    have hdrop : path.drop (pys "/papers/").length = id := by
      rw [hpath]
      exact List.drop_left _ _
    unfold doGET
    rw [if_neg hrec, if_neg (by simp [hauth]), if_pos (by simp [hpre, hauth, hkw, hsearch]),
        hdrop]

/-- C8 witness: the lookup of a missing id on the empty table answers none
at the query layer and a structured 404 at the HTTP layer. -/
theorem C8_witness :
    doGET [] none (pys "/papers/" ++ pys "xyz") emptyQS =
      (404, RespBody.errWithId (pys "Paper not found") (pys "xyz")) := by
  have h := (C8_by_id_lookup [] (pys "xyz")).2.2 (pys "/papers/" ++ pys "xyz")
    emptyQS rfl (by decide) (by decide) (by decide) (by decide)
  rw [h]
  rfl

/-- C9 counterexample: the 500 handler propagates str(e) to the client: a
store failure with message "Unable to locate credentials" surfaces verbatim
in the response body, so internal exception details are not withheld. -/
theorem C9_counterexample :
    doGET [] (some (pys "Unable to locate credentials"))
        (pys "/papers/author/Ng") emptyQS
      = (500, RespBody.errInternal (pys "Internal server error")
          (pys "Unable to locate credentials")) := by
  decide

/-- C9 amended: an unknown path always answers 404 with the structured
unknown-endpoint body; a request that reaches a store query while the store
raises answers 500 with a body carrying the fixed error marker together
with the exception message str(e) (the message is propagated to the
client, not withheld). -/
theorem C9_http_error_responses (tbl : List Item) (f : Option PyStr)
    (path : PyStr) (qs : QueryParams) :
    (isKnownPath path = false →
      doGET tbl f path qs =
        (404, RespBody.errWithPath (pys "Unknown endpoint") path)) ∧
    (∀ e, reachesStore path qs = true →
      doGET tbl (some e) path qs =
        (500, RespBody.errInternal (pys "Internal server error") e)) := by
  constructor
  · intro hk
    unfold isKnownPath at hk
    simp only [Bool.or_eq_false_iff, decide_eq_false_iff_not] at hk
    obtain ⟨⟨⟨⟨h1, h2⟩, h3⟩, h4⟩, h5⟩ := hk
    have h2f : (pys "/papers/author/").isPrefixOf path = false :=
      Bool.not_eq_true _ ▸ h2
    have h5f : (pys "/papers/keyword/").isPrefixOf path = false :=
      Bool.not_eq_true _ ▸ h5
    unfold doGET
    rw [if_neg h1, if_neg (by simp [h2f]), if_neg (by simp [h3]), if_neg h4,
        if_neg (by simp [h5f])]
  · intro e hr
    unfold reachesStore at hr
    unfold doGET
    by_cases h1 : path = pys "/papers/recent"
    · rw [if_pos h1] at hr ⊢
      obtain ⟨hi, hc⟩ := Bool.and_eq_true_iff.1 hr
      obtain ⟨lim, hlim⟩ := Option.isSome_iff_exists.1 hi
      rw [hlim]
      simp [hc, internalErr]
    · rw [if_neg h1] at hr ⊢
      by_cases h2 : (pys "/papers/author/").isPrefixOf path = true
      · rw [if_pos h2] at hr ⊢
        simp [internalErr]
      · rw [if_neg h2] at hr ⊢
        by_cases h3 : ((pys "/papers/").isPrefixOf path
            && !(pys "/papers/author/").isPrefixOf path
            && !(pys "/papers/keyword/").isPrefixOf path
            && !(pys "/papers/search").isPrefixOf path) = true
        · rw [if_pos h3] at hr ⊢
          simp [internalErr]
        · rw [if_neg h3] at hr ⊢
          by_cases h4 : path = pys "/papers/search"
          · rw [if_pos h4] at hr ⊢
            simp [hr, internalErr]
          · rw [if_neg h4] at hr ⊢
            by_cases h5 : (pys "/papers/keyword/").isPrefixOf path = true
            · rw [if_pos h5] at hr ⊢
              obtain ⟨lim, hlim⟩ := Option.isSome_iff_exists.1 hr
              rw [hlim]
              simp [internalErr]
            · rw [if_neg h5] at hr
              cases hr

/-- C9 witness: the amended behaviour at concrete requests: an unknown path
answers the structured 404, and a failing store call on the search endpoint
answers 500 with the exception text in the body. -/
theorem C9_witness :
    doGET [] (some (pys "boom")) (pys "/nope") emptyQS =
      (404, RespBody.errWithPath (pys "Unknown endpoint") (pys "/nope")) ∧
    doGET [] (some (pys "boom")) (pys "/papers/search")
        ⟨some (pys "cs.AI"), none, some (pys "2020-01-01"), some (pys "2020-01-02")⟩ =
      (500, RespBody.errInternal (pys "Internal server error") (pys "boom")) :=
  ⟨(C9_http_error_responses [] (some (pys "boom")) (pys "/nope") emptyQS).1
      (by decide),
   (C9_http_error_responses [] (some (pys "boom")) (pys "/papers/search")
      ⟨some (pys "cs.AI"), none, some (pys "2020-01-01"), some (pys "2020-01-02")⟩).2
      (pys "boom") (by decide)⟩

theorem parseIsoDate_some_length {s : PyStr} {v : Nat × Nat × Nat}
    (h : parseIsoDate s = some v) : s.length = 10 := by
  rcases s with _ | ⟨a1, _ | ⟨a2, _ | ⟨a3, _ | ⟨a4, _ | ⟨a5, _ | ⟨a6, _ |
    ⟨a7, _ | ⟨a8, _ | ⟨a9, _ | ⟨a10, _ | ⟨a11, rest⟩⟩⟩⟩⟩⟩⟩⟩⟩⟩⟩ <;>
    first
      | rfl
      | exact absurd h (by simp [parseIsoDate])

theorem replaceFuel_not_mem {p0 : Char} (pr rep : PyStr) :
    ∀ (s : PyStr) (fuel : Nat), p0 ∉ s →
      replaceFuel (p0 :: pr) rep fuel s = s := by
  intro s
  induction s with
  | nil => intro fuel _; cases fuel <;> rfl
  | cons c cs ih =>
    intro fuel h
    cases fuel with
    | zero => rfl
    | succ fuel =>
      have hc : c ≠ p0 := fun he => h (he ▸ List.mem_cons_self c cs)
      show (match stripPrefixOpt (p0 :: pr) (c :: cs), (p0 :: pr) with
        | some rest, _ :: _ => rep ++ replaceFuel (p0 :: pr) rep fuel rest
        | _, _ => c :: replaceFuel (p0 :: pr) rep fuel cs) = c :: cs
      unfold stripPrefixOpt
      rw [if_neg hc]
      rw [ih fuel (fun hm => h (List.mem_cons_of_mem c hm))]

theorem replaceList_not_mem {p0 : Char} (pr rep : PyStr) (s : PyStr)
    (h : p0 ∉ s) : replaceList (p0 :: pr) rep s = s :=
  replaceFuel_not_mem pr rep s s.length h

theorem mem_pad2_toNat (n : Nat) (c : Char) (h : c ∈ pad2 n) :
    48 ≤ c.toNat ∧ c.toNat ≤ 57 := by
  unfold pad2 at h
  have hd : ∀ k : Nat, k ≤ 9 → 48 ≤ (digitChar k).toNat ∧ (digitChar k).toNat ≤ 57 := by
    intro k hk
    rw [digitChar_toNat k hk]
    omega
  rcases List.mem_cons.1 h with rfl | h
  · exact hd _ (Nat.le_of_lt_succ (Nat.mod_lt _ (by omega)))
  · rcases List.mem_cons.1 h with rfl | h
    · exact hd _ (Nat.le_of_lt_succ (Nat.mod_lt _ (by omega)))
    · cases h

theorem mem_pad4_toNat (n : Nat) (c : Char) (h : c ∈ pad4 n) :
    48 ≤ c.toNat ∧ c.toNat ≤ 57 := by
  unfold pad4 at h
  have hd : ∀ k : Nat, k ≤ 9 → 48 ≤ (digitChar k).toNat ∧ (digitChar k).toNat ≤ 57 := by
    intro k hk
    rw [digitChar_toNat k hk]
    omega
  rcases List.mem_cons.1 h with rfl | h
  · exact hd _ (Nat.le_of_lt_succ (Nat.mod_lt _ (by omega)))
  · rcases List.mem_cons.1 h with rfl | h
    · exact hd _ (Nat.le_of_lt_succ (Nat.mod_lt _ (by omega)))
    · rcases List.mem_cons.1 h with rfl | h
      · exact hd _ (Nat.le_of_lt_succ (Nat.mod_lt _ (by omega)))
      · rcases List.mem_cons.1 h with rfl | h
        · exact hd _ (Nat.le_of_lt_succ (Nat.mod_lt _ (by omega)))
        · cases h

theorem no_plus_fmtDateYMD (y m d : Nat) : '+' ∉ fmtDateYMD y m d := by
  intro h
  have hplus : ('+' : Char).toNat = 43 := rfl
  unfold fmtDateYMD at h
  rcases List.mem_append.1 h with h | h
  · rcases List.mem_append.1 h with h | h
    · rcases List.mem_append.1 h with h | h
      · rcases List.mem_append.1 h with h | h
        · have := mem_pad4_toNat y _ h
          omega
        · simp at h
      · have := mem_pad2_toNat m _ h
        omega
    · simp at h
  · have := mem_pad2_toNat d _ h
    omega

theorem no_plus_midnight_tail : '+' ∉ pys "T00:00:00" := by decide

theorem fmtIso_midnight (y m d : Nat) :
    fmtIso ⟨y, m, d, 0, 0, 0, 0, none⟩ = fmtDateYMD y m d ++ pys "T00:00:00" := by
  unfold fmtIso fmtDate
  simp only [List.append_assoc]
  congr 1

theorem replace_midnight_id (y m d : Nat) :
    replaceList (pys "+00:00") (pys "Z") (fmtDateYMD y m d ++ pys "T00:00:00")
      = fmtDateYMD y m d ++ pys "T00:00:00" := by
  have hpat : pys "+00:00" = '+' :: pys "00:00" := rfl
  rw [hpat]
  refine replaceList_not_mem _ _ _ ?_
  intro hmem
  rcases List.mem_append.1 hmem with h | h
  · exact no_plus_fmtDateYMD y m d h
  · exact no_plus_midnight_tail h

/-- C5 counterexample: a full timestamp with a +05:00 offset is re-emitted
with that offset intact, not converted to a normalized UTC instant (no Z or
+00:00 marker), contradicting the claim that parsed timestamps are
re-emitted as UTC instants. -/
theorem C5_counterexample :
    normalize_published (some (pys "2011-11-12T03:04:05+05:00"))
      = (pys "2011-11-12", pys "2011-11-12T03:04:05+05:00") ∧
    isUTCMarked (pys "2011-11-12T03:04:05+05:00") = false := by
  decide

/-- C5 amended: absent or empty input yields the epoch pair; a date-only
string (no T) whose stripped form parses as a date is emitted as that date
with the midnight timestamp and no offset marker; a string containing T is
parsed after rewriting Z to +00:00 and re-emitted in normalized ISO-8601
form with its original offset preserved (+00:00 printed as Z); an
unparseable string falls back to its first 10 characters as the date with
the raw string as the timestamp, never failing. -/
theorem C5_normalize_published_spec :
    normalize_published none = (pys "1970-01-01", pys "1970-01-01T00:00:00Z") ∧
    normalize_published (some []) =
      (pys "1970-01-01", pys "1970-01-01T00:00:00Z") ∧
    (∀ s y m d, s ≠ [] → s.contains 'T' = false →
      parseIsoDate (pyStrip s) = some (y, m, d) →
      normalize_published (some s) =
        (fmtDateYMD y m d, fmtDateYMD y m d ++ pys "T00:00:00")) ∧
    (∀ s dt, s ≠ [] → s.contains 'T' = true →
      pyFromIso (replaceList (pys "Z") (pys "+00:00") s) = some dt →
      normalize_published (some s) =
        (fmtDate dt, replaceList (pys "+00:00") (pys "Z") (fmtIso dt))) ∧
    (∀ s, s ≠ [] →
      pyFromIso (if s.contains 'T' then replaceList (pys "Z") (pys "+00:00") s
                 else pyStrip s ++ pys "T00:00:00") = none →
      normalize_published (some s) = (s.take 10, s)) := by
  refine ⟨rfl, rfl, ?_, ?_, ?_⟩
  · intro s y m d hne hT hdate
    have hlen := parseIsoDate_some_length hdate
    have hfrom : pyFromIso (pyStrip s ++ pys "T00:00:00")
        = some ⟨y, m, d, 0, 0, 0, 0, none⟩ := by
      unfold pyFromIso
      have htake : (pyStrip s ++ pys "T00:00:00").take 10 = pyStrip s :=
        List.take_left' hlen
      have hsplit : pyStrip s ++ pys "T00:00:00"
          = (pyStrip s ++ ['T']) ++ pys "00:00:00" := by
        rw [List.append_assoc]
        rfl
      have hdrop : (pyStrip s ++ pys "T00:00:00").drop 11 = pys "00:00:00" := by
        rw [hsplit]
        exact List.drop_left' (by simp [hlen])
      rw [htake, hdate, hdrop]
      rfl
    simp only [normalize_published]
    rw [if_neg hne]
    simp only [hT, Bool.false_eq_true, if_false, hfrom]
    rw [show fmtDate ⟨y, m, d, 0, 0, 0, 0, none⟩ = fmtDateYMD y m d from rfl,
        fmtIso_midnight, replace_midnight_id]
  · intro s dt hne hT hparse
    simp only [normalize_published]
    rw [if_neg hne]
    simp only [hT, if_true, hparse]
  · intro s hne hparse
    simp only [normalize_published]
    rw [if_neg hne]
    by_cases hT : s.contains 'T' = true
    · rw [hT] at hparse
      simp only [hT, if_true]
      rw [if_pos rfl] at hparse
      simp only [hparse]
    · have hTf : s.contains 'T' = false := by
        cases h2 : s.contains 'T'
        · rfl
        · exact absurd h2 hT
      rw [hTf] at hparse
      simp only [hTf, Bool.false_eq_true, if_false] at hparse ⊢
      simp only [hparse]

/-- C5 witness: the specification at concrete inputs: a padded date-only
string with surrounding whitespace normalizes to the date and a midnight
timestamp, a Z-marked timestamp is re-emitted with the Z marker, and a
fractional-second timestamp with an explicit +00:00 offset is parsed and
re-emitted with a six-digit fraction and the Z marker. -/
theorem C5_witness :
    normalize_published (some (pys " 2020-05-06 ")) =
      (fmtDateYMD 2020 5 6, fmtDateYMD 2020 5 6 ++ pys "T00:00:00") ∧
    normalize_published (some (pys "2020-05-06T07:08:09Z")) =
      (fmtDate ⟨2020, 5, 6, 7, 8, 9, 0, some 0⟩,
        replaceList (pys "+00:00") (pys "Z")
          (fmtIso ⟨2020, 5, 6, 7, 8, 9, 0, some 0⟩)) ∧
    normalize_published (some (pys "2023-01-15T18:30:00.123+00:00")) =
      (pys "2023-01-15", pys "2023-01-15T18:30:00.123000Z") := by
  refine ⟨C5_normalize_published_spec.2.2.1 (pys " 2020-05-06 ") 2020 5 6
      (by decide) (by decide) (by decide),
    C5_normalize_published_spec.2.2.2.1 (pys "2020-05-06T07:08:09Z")
      ⟨2020, 5, 6, 7, 8, 9, 0, some 0⟩ (by decide) (by decide) (by decide), ?_⟩
  have h := C5_normalize_published_spec.2.2.2.1
    (pys "2023-01-15T18:30:00.123+00:00")
    ⟨2023, 1, 15, 18, 30, 0, 123000, some 0⟩
    (by decide) (by decide) (by decide)
  rw [h]
  decide
